import Mathlib

set_option maxRecDepth 4000

namespace OppConfig

/-- Shallow embedding of the YAML/Python values flowing through the
configuration pipeline of `openpeerpower/config.py`.  Python `None` is
`null`; dictionaries are insertion-ordered association lists, matching
Python dict semantics. -/
inductive Value where
  | null : Value
  | bool : Bool → Value
  | int : Int → Value
  | str : String → Value
  | list : List Value → Value
  | dict : List (String × Value) → Value

/-- An insertion-ordered Python dict with string keys. -/
abbrev AList := List (String × Value)

/-- Lookup in an insertion-ordered dict (Python `d.get(k)` / `d[k]`). -/
def alistGet {α : Type} : List (String × α) → String → Option α
  | [], _ => none
  | (k2, v) :: t, k => if k2 = k then some v else alistGet t k

/-- Assignment `d[k] = v` on an insertion-ordered dict: replaces in place
when the key exists, appends at the end otherwise. -/
def alistSet {α : Type} : List (String × α) → String → α → List (String × α)
  | [], k, v => [(k, v)]
  | (k2, v2) :: t, k, v =>
    if k2 = k then (k, v) :: t else (k2, v2) :: alistSet t k v

/-- Python `conf.get(key)`: `None` both when the key is absent and when it
holds `None`. -/
def pyGet (conf : AList) (k : String) : Value := (alistGet conf k).getD .null

/-- Python `conf.get(key, default)`. -/
def alistGetD (conf : AList) (k : String) (d : Value) : Value :=
  (alistGet conf k).getD d

def Value.isNull : Value → Bool
  | .null => true
  | _ => false

def Value.isDict : Value → Bool
  | .dict _ => true
  | _ => false

def Value.isList : Value → Bool
  | .list _ => true
  | _ => false

/-- True for values on which `_recursive_merge` takes the dict or list
branch rather than the scalar branch. -/
def Value.isContainer : Value → Bool
  | .dict _ => true
  | .list _ => true
  | _ => false

/-- Python truthiness (`if not comp_conf`). -/
def Value.falsy : Value → Bool
  | .null => true
  | .bool b => !b
  | .int n => n == 0
  | .str s => s.isEmpty
  | .list l => l.isEmpty
  | .dict d => d.isEmpty

/-- Modelled from the spec: the coercion helper `cv.ensure_list` of
`openpeerpower.helpers.config_validation` (the module itself is not in the
excerpt).  The spec describes it as coercing a fragment to a list: `None`
maps to the empty list, a list is kept as is, anything else becomes a
one-element list. -/
def ensure_list : Value → List Value
  | .null => []
  | .list l => l
  | v => [v]

/-- Outcome of `_recursive_merge`: the mutated destination dict together
with the duplicate-key return value (`False` or the conflicting key), or
the partially mutated dict at the point where the Python code would raise
a `TypeError`/`AttributeError` (merging a dict fragment onto an existing
non-dict value). -/
inductive RMResult where
  | ok : AList → Option String → RMResult
  | crash : AList → RMResult

/-- True when every entry of the fragment is an empty dict or an empty
list, so that the Python loop of `_recursive_merge` would `continue` on
every entry without ever touching the destination (relevant when the
destination is not a dict and any touch would raise). -/
def all_skippable (d : AList) : Bool :=
  d.all fun kv =>
    match kv.2 with
    | .dict x => x.isEmpty
    | .list x => x.isEmpty
    | _ => false

/-- Embedding of `_recursive_merge` (config.py lines 590-611) with the
running `error` variable made explicit.  The dict branch overwrites `error`
with the recursive result and keeps looping; the scalar branch returns the
conflicting key immediately, skipping the remaining entries at this level. -/
def _recursive_merge_aux (conf : AList) (package : AList)
    (err : Option String) : RMResult :=
  match package with
  | [] => .ok conf err
  | (key, packConf) :: rest =>
    match packConf with
    | .dict d =>
      if d.isEmpty then _recursive_merge_aux conf rest err
      else
        let existing := alistGetD conf key (.dict [])
        let conf1 := alistSet conf key existing
        match existing with
        | .dict sub =>
          match _recursive_merge_aux sub d none with
          | .crash sub2 => .crash (alistSet conf1 key (.dict sub2))
          | .ok sub2 suberr =>
            _recursive_merge_aux (alistSet conf1 key (.dict sub2)) rest suberr
        | _ =>
          if all_skippable d then _recursive_merge_aux conf1 rest none
          else .crash conf1
    | .list l =>
      if l.isEmpty then _recursive_merge_aux conf rest err
      else
        _recursive_merge_aux
          (alistSet conf key (.list (ensure_list (pyGet conf key) ++ l)))
          rest err
    | _ =>
      if (pyGet conf key).isNull then
        _recursive_merge_aux (alistSet conf key packConf) rest err
      else .ok conf (some key)
termination_by sizeOf package
decreasing_by all_goals (simp_wf <;> omega)

/-- Embedding of `_recursive_merge(conf, package)` with `error`
initialised to `False`. -/
def _recursive_merge (conf : AList) (package : AList) : RMResult :=
  _recursive_merge_aux conf package none

/-- Modelled from the spec: the reserved core domain key (`DOMAIN` of
`openpeerpower.core`, imported as `CONF_CORE`; the core module is not in
the excerpt).  The spec calls it the reserved core key. -/
def CONF_CORE : String := "openpeerpower"

/-- Modelled from the spec: slug validity as used by
`cv.schema_with_slug_keys` (the validators module is not in the excerpt).
The spec defines a slug as lowercase letters, digits and underscore. -/
def isSlug (s : String) : Bool :=
  !s.isEmpty && s.toList.all fun c => c.isLower || c.isDigit || c == '_'

/-- Validity of one package body under the inner
`vol.Schema({cv.string: vol.Any(dict, list, None)})` of
`PACKAGES_CONFIG_SCHEMA` (config.py lines 139-141): a dict whose domain
entries are each a dict, a list or null. -/
def package_body_valid : Value → Bool
  | .dict entries =>
    entries.all fun kv =>
      match kv.2 with
      | .dict _ => true
      | .list _ => true
      | .null => true
      | _ => false
  | _ => false

/-- Embedding of `PACKAGES_CONFIG_SCHEMA` (config.py lines 139-141): a
dict keyed by slugs whose values satisfy `package_body_valid`.  The slug
check itself is modelled from the spec (see `isSlug`). -/
def packages_config_schema_valid : Value → Bool
  | .dict pkgs => pkgs.all fun kv => isSlug kv.1 && package_body_valid kv.2
  | _ => false

/-- Classification produced by `_identify_config_schema` (config.py lines
575-587) for a component that has a `CONFIG_SCHEMA`: dict-shaped,
list-shaped, or anything else (the `''` and `None` outcomes, which the
merge code treats alike because it only tests for `'list'`). -/
inductive MergeKind where
  | dict
  | list
  | other
deriving DecidableEq

/-- Result of resolving a domain through the integration loader as seen by
`merge_packages_config`: not found, import failure, or a component with
its schema attributes (`PLATFORM_SCHEMA` presence and the
`_identify_config_schema` classification of its `CONFIG_SCHEMA`, `none`
when the component has no `CONFIG_SCHEMA` attribute). -/
inductive CompRes where
  | notFound
  | importError
  | comp (hasPlatformSchema : Bool) (configKind : Option MergeKind)

/-- One error recorded through `_log_pkg_error`: the package name, the
component key and the message. -/
structure PkgError where
  package : String
  component : String
  message : String
deriving DecidableEq

/-- The config tree together with the errors logged so far during a
package merge. -/
structure MergeState where
  config : AList
  errors : List PkgError

/-- Appends a `_log_pkg_error` record. -/
def pkgErr (st : MergeState) (p c msg : String) : MergeState :=
  { st with errors := st.errors ++ [⟨p, c, msg⟩] }

/-- An ASCII single-quote character, used in the duplicate-key message. -/
def squote : String := String.singleton (Char.ofNat 39)

/-- The message `has duplicate key ...` of config.py line 686, with the
conflicting key wrapped in single quotes. -/
def dupKeyMsg (k : String) : String :=
  "has duplicate key " ++ squote ++ k ++ squote

/-- Python `comp_name.split(' ')[0]`: the domain with any trailing
space-delimited descriptor removed (config.py line 627). -/
def firstWord (s : String) : String := (s.splitOn " ").headD s

/-- Merging of a single `(comp_name, comp_conf)` entry of one package into
the config tree, the body of the inner loop of `merge_packages_config`
(config.py lines 622-686).  The boolean is true when the Python code would
escape with a `TypeError` out of `_recursive_merge`.  The duplicate-key
log at line 684 is guarded by `if error:`, a Python truthiness test on the
`Union[bool, str]` return value of `_recursive_merge`, so a conflict whose
returned key is the empty string is dropped silently. -/
def mergeDomainEntry (env : String → CompRes) (st : MergeState)
    (packName compName : String) (compConf : Value) : MergeState × Bool :=
  if compName = CONF_CORE then (st, false)
  else
    match env (firstWord compName) with
    | .notFound => (pkgErr st packName compName "does not exist", false)
    | .importError => (pkgErr st packName compName "unable to import", false)
    | .comp hasPlat cfgKind =>
      if hasPlat then
        if compConf.falsy then (st, false)
        else
          let merged := Value.list
            (ensure_list (pyGet st.config compName) ++ ensure_list compConf)
          ({ st with config := alistSet st.config compName merged }, false)
      else if cfgKind = some MergeKind.list then
        if compConf.falsy then (st, false)
        else
          let merged := Value.list
            (ensure_list (pyGet st.config compName) ++ ensure_list compConf)
          ({ st with config := alistSet st.config compName merged }, false)
      else
        let cc := if compConf.isNull then Value.dict [] else compConf
        match cc with
        | .dict ccd =>
          let cfg1 :=
            if (pyGet st.config compName).isNull then
              alistSet st.config compName (.dict [])
            else st.config
          match alistGet cfg1 compName with
          | some (.dict existing) =>
            match _recursive_merge existing ccd with
            | .crash conf2 =>
              ({ config := alistSet cfg1 compName (.dict conf2),
                 errors := st.errors }, true)
            | .ok conf2 dup =>
              let st2 : MergeState :=
                { config := alistSet cfg1 compName (.dict conf2),
                  errors := st.errors }
              match dup with
              | some k =>
                if k.isEmpty then (st2, false)
                else (pkgErr st2 packName compName (dupKeyMsg k), false)
              | none => (st2, false)
          | _ =>
            (pkgErr { st with config := cfg1 } packName compName
              "cannot be merged. Dict expected in main config.", false)
        | _ =>
          (pkgErr st packName compName
            "cannot be merged. Expected a dict.", false)

/-- The inner loop of `merge_packages_config` over the entries of one
package, stopping early when a merge crashes. -/
def mergePackageEntries (env : String → CompRes) (st : MergeState)
    (packName : String) : List (String × Value) → MergeState × Bool
  | [] => (st, false)
  | (c, v) :: rest =>
    match mergeDomainEntry env st packName c v with
    | (st2, true) => (st2, true)
    | (st2, false) => mergePackageEntries env st2 packName rest

/-- The outer loop of `merge_packages_config` over the packages, stopping
early when a merge crashes.  A non-dict package body would raise an
`AttributeError` in Python; that case is unreachable after the schema
check. -/
def mergePackagesLoop (env : String → CompRes) (st : MergeState) :
    List (String × Value) → MergeState × Bool
  | [] => (st, false)
  | (pname, pbody) :: rest =>
    match pbody with
    | .dict entries =>
      match mergePackageEntries env st pname entries with
      | (st2, true) => (st2, true)
      | (st2, false) => mergePackagesLoop env st2 rest
    | _ => (st, true)

/-- The exceptions `merge_packages_config` can let escape: the
`vol.Invalid` of the up-front `PACKAGES_CONFIG_SCHEMA` check, or a
`TypeError` escaping `_recursive_merge`. -/
inductive MergeExc where
  | invalid
  | typeErr
deriving DecidableEq

/-- Embedding of `merge_packages_config(opp, config, packages)` (config.py
lines 614-688): validates the packages against the schema first, then
merges each package in iteration order, collecting `_log_pkg_error`
records.  Returns the final config tree and errors along with the
exception, if one escapes; when the schema check fails nothing has been
merged. -/
def merge_packages_config (env : String → CompRes) (config : AList)
    (packages : Value) : MergeState × Option MergeExc :=
  if packages_config_schema_valid packages then
    match packages with
    | .dict pkgs =>
      match mergePackagesLoop env ⟨config, []⟩ pkgs with
      | (st, true) => (st, some .typeErr)
      | (st, false) => (st, none)
    | _ => (⟨config, []⟩, some .invalid)
  else (⟨config, []⟩, some .invalid)

/-- The integration handle as seen by `async_process_component_config`
(config.py lines 691-759): the domain, the optional `CONFIG_SCHEMA`
(applied to the whole config tree, returning the validated tree), and the
optional `PLATFORM_SCHEMA_BASE`/`PLATFORM_SCHEMA` applied per entry.
Schemas are opaque validation functions; `Except Unit` stands for a
possible `vol.Invalid`. -/
structure IntegrationModel where
  domain : String
  configSchema : Option (Value → Except Unit AList)
  platformSchemaBase : Option (Value → Except Unit Value)

/-- Resolution of a named platform through the integration loader as seen
by `async_process_component_config`: `none` when the integration is not
found or its module fails to import (config.py lines 733-737), otherwise
the platform with its optional `PLATFORM_SCHEMA`. -/
abbrev PlatEnv := String → Option (Option (Value → Except Unit Value))

/-- Modelled from the spec: `extract_domain_configs(config, domain)` of
`openpeerpower.helpers` (the helpers module is not in the excerpt).  The
spec says packages and validation address a domain through its key or a
key carrying a space-delimited trailing descriptor, so the keys for a
domain are the key equal to the domain and every key starting with the
domain followed by a space. -/
def extract_domain_configs (config : AList) (domain : String) :
    List String :=
  (config.map Prod.fst).filter fun k =>
    decide (k = domain) || k.startsWith (domain ++ " ")

/-- Modelled from the spec: the platform name of one entry, read from its
`platform` key when the entry is a dict naming one (spec 4.2: entries with
no explicit platform name bypass platform-specific validation). -/
def platformName (v : Value) : Option String :=
  match v with
  | .dict d =>
    match alistGet d "platform" with
    | some (.str s) => some s
    | _ => none
  | _ => none

/-- Modelled from the spec: `config_per_platform(config, domain)` of
`openpeerpower.helpers` (the helpers module is not in the excerpt).  The
spec says validation iterates every platform entry configured under that
domain: each domain key's value is coerced to a list of entries (empty
values are skipped) and each entry is paired with its platform name. -/
def config_per_platform (config : AList) (domain : String) :
    List (Option String × Value) :=
  (extract_domain_configs config domain).flatMap fun k =>
    let v := pyGet config k
    if v.falsy then []
    else (ensure_list v).map fun item => (platformName item, item)

/-- Validation of one platform entry, the body of the loop of
`async_process_component_config` (config.py lines 718-750): the
component-level platform schema first, then, for entries naming a
platform, its resolution and its platform-specific schema (applied to the
raw entry).  Returns the validated entry if it survives together with the
domain strings passed to `async_log_exception` for it. -/
def processEntry (penv : PlatEnv) (domain : String)
    (sb : Value → Except Unit Value) (e : Option String × Value) :
    Option Value × List String :=
  match sb e.2 with
  | .error _ => (none, [domain])
  | .ok v =>
    match e.1 with
    | none => (some v, [])
    | some n =>
      match penv n with
      | none => (none, [])
      | some none => (some v, [])
      | some (some ps) =>
        match ps e.2 with
        | .error _ => (none, [domain ++ "." ++ n])
        | .ok v2 => (some v2, [])

/-- The platform loop of `async_process_component_config`: accumulates the
surviving validated entries and the logged errors in entry order. -/
def platformLoop (penv : PlatEnv) (domain : String)
    (sb : Value → Except Unit Value) :
    List (Option String × Value) → List Value × List String
  | [] => ([], [])
  | e :: rest =>
    ((match (processEntry penv domain sb e).1 with
      | some v => v :: (platformLoop penv domain sb rest).1
      | none => (platformLoop penv domain sb rest).1),
     (processEntry penv domain sb e).2 ++ (platformLoop penv domain sb rest).2)

/-- Embedding of `async_process_component_config(opp, config, integration)`
(config.py lines 691-759).  Returns the processed config (`none` models
the Python `None` on a whole-of-domain schema failure) together with the
domain strings logged through `async_log_exception`. -/
def async_process_component_config (penv : PlatEnv)
    (integ : IntegrationModel) (config : AList) :
    Option AList × List String :=
  match integ.configSchema with
  | some f =>
    match f (.dict config) with
    | .error _ => (none, [integ.domain])
    | .ok newConf => (some newConf, [])
  | none =>
    match integ.platformSchemaBase with
    | none => (some config, [])
    | some sb =>
      let entries := config_per_platform config integ.domain
      let res := platformLoop penv integ.domain sb entries
      let fkeys := extract_domain_configs config integ.domain
      let conf2 := config.filter fun kv => !(decide (kv.1 ∈ fkeys))
      (some (conf2 ++ [(integ.domain, .list res.1)]), res.2)

/-- The two unit systems of `openpeerpower.util.unit_system`. -/
inductive UnitSystem where
  | metric
  | imperial
deriving DecidableEq

/-- The runtime core configuration fields touched by
`async_process_ha_core_config` (config.py lines 404-558): `none` models a
Python `None` (still unset) field. -/
structure Hac where
  latitude : Option Value
  longitude : Option Value
  location_name : Option Value
  elevation : Option Value
  units : Option UnitSystem
  time_zone : Option String

/-- Modelled from the spec: the value of the constant
`CONF_UNIT_SYSTEM_IMPERIAL` of `openpeerpower.const` (not in the excerpt);
the spec calls it the imperial constant. -/
def CONF_UNIT_SYSTEM_IMPERIAL : String := "imperial"

/-- Modelled from the spec: the value of the constant `TEMP_CELSIUS` of
`openpeerpower.const` (not in the excerpt); the spec calls it Celsius. -/
def TEMP_CELSIUS : String := "°C"

/-- Equality of a config value with a string constant (Python `==`). -/
def Value.eqStr : Value → String → Bool
  | .str t, s => t = s
  | _, _ => false

/-- A Python attribute assignment target: `None` becomes an unset field. -/
def pyToOpt (v : Value) : Option Value :=
  if v.isNull then none else some v

/-- Helper for the explicit-key loop of config.py lines 457-462: assign
the field from the config when the key is present, keep it otherwise. -/
def setIfPresent (config : AList) (k : String) (cur : Option Value) :
    Option Value :=
  match alistGet config k with
  | some v => pyToOpt v
  | none => cur

/-- The explicit-key phase of `async_process_ha_core_config` (config.py
lines 457-464): latitude, longitude, name and elevation from explicit
keys, then `set_time_zone(config.get(CONF_TIME_ZONE))` where `getTZ`
stands for `date_util.get_time_zone` (invalid names leave the field
unchanged and only log). -/
def applyExplicit (getTZ : String → Option String) (config : AList)
    (hac : Hac) : Hac :=
  let h1 := { hac with latitude := setIfPresent config "latitude" hac.latitude }
  let h2 := { h1 with longitude := setIfPresent config "longitude" h1.longitude }
  let h3 := { h2 with
    location_name := setIfPresent config "name" h2.location_name }
  let h4 := { h3 with elevation := setIfPresent config "elevation" h3.elevation }
  match pyGet config "time_zone" with
  | .str s =>
    match getTZ s with
    | some tz => { h4 with time_zone := some tz }
    | none => h4
  | _ => h4

/-- The unit-system resolution of `async_process_ha_core_config`
(config.py lines 496-510): the explicit `unit_system` key wins, else the
deprecated `temperature_unit` key maps Celsius to metric and anything else
to imperial while logging a deprecation warning (the boolean), else the
units are left untouched. -/
def applyUnits (config : AList) (hac : Hac) : Hac × Bool :=
  match alistGet config "unit_system" with
  | some v =>
    let u : UnitSystem :=
      if v.eqStr CONF_UNIT_SYSTEM_IMPERIAL then .imperial else .metric
    ({ hac with units := some u }, false)
  | none =>
    match alistGet config "temperature_unit" with
    | some v =>
      let u : UnitSystem :=
        if v.eqStr TEMP_CELSIUS then .metric else .imperial
      ({ hac with units := some u }, true)
    | none => (hac, false)

/-- The record returned by the location-detection network lookup
(`loc_util.async_detect_location_info`). -/
structure LocInfo where
  latitude : Value
  longitude : Value
  use_metric : Bool
  city : Value
  time_zone : String

/-- The shortcut condition of config.py lines 512-515: every
auto-detectable field already known. -/
def allKnown (h : Hac) : Bool :=
  h.latitude.isSome && h.longitude.isSome && h.units.isSome
    && h.time_zone.isSome && h.elevation.isSome

/-- The condition of config.py lines 520-521 triggering the location
lookup. -/
def locNeeded (h : Hac) : Bool :=
  !h.latitude.isSome || !h.longitude.isSome || !h.units.isSome
    || !h.time_zone.isSome

/-- Application of a successful location-detection result (config.py lines
530-545): each still-unset field among latitude+longitude, units, name and
time zone is populated; explicit values are never overwritten. -/
def applyLocInfo (getTZ : String → Option String) (info : LocInfo)
    (h : Hac) : Hac :=
  let h1 :=
    if !h.latitude.isSome && !h.longitude.isSome then
      { h with latitude := pyToOpt info.latitude,
               longitude := pyToOpt info.longitude }
    else h
  let h2 :=
    if !h1.units.isSome then
      { h1 with units := some (if info.use_metric then .metric else .imperial) }
    else h1
  let h3 :=
    if !h2.location_name.isSome then
      { h2 with location_name := pyToOpt info.city }
    else h2
  if !h3.time_zone.isSome then
    match getTZ info.time_zone with
    | some tz => { h3 with time_zone := some tz }
    | none => h3
  else h3

/-- The elevation lookup phase (config.py lines 547-553): fires only when
elevation is unset while latitude and longitude are known; the boolean
records whether the network elevation lookup ran. -/
def elevPhase (elev : Value) (h : Hac) : Hac × Bool :=
  if !h.elevation.isSome && h.latitude.isSome && h.longitude.isSome then
    ({ h with elevation := pyToOpt elev }, true)
  else (h, false)

/-- The auto-detection tail of `async_process_ha_core_config` (config.py
lines 512-553): the shortcut, then the location lookup (whose possible
failure is `locInfo = none`, which logs and returns), then the elevation
lookup.  The two booleans record whether the location lookup and the
elevation lookup ran. -/
def autoDetect (getTZ : String → Option String) (locInfo : Option LocInfo)
    (elev : Value) (h : Hac) : Hac × Bool × Bool :=
  if allKnown h then (h, false, false)
  else if locNeeded h then
    match locInfo with
    | none => (h, true, false)
    | some info =>
      let h2 := applyLocInfo getTZ info h
      let r := elevPhase elev h2
      (r.1, true, r.2)
  else
    let r := elevPhase elev h
    (r.1, false, r.2)

/-- The observable outcome of the location/units part of
`async_process_ha_core_config`. -/
structure CoreOutcome where
  hac : Hac
  locationLookup : Bool
  elevationLookup : Bool
  deprecatedTempUnit : Bool

/-- Embedding of the location/units/auto-detection portion of
`async_process_ha_core_config(opp, config, ...)` (config.py lines
404-558) on an already schema-validated core section: explicit keys, unit
resolution, then auto detection.  The auth-manager bootstrap, whitelist
and customize handling touch disjoint state and are not modelled. -/
def async_process_ha_core_config (getTZ : String → Option String)
    (locInfo : Option LocInfo) (elev : Value) (config : AList)
    (hac0 : Hac) : CoreOutcome :=
  let h1 := applyExplicit getTZ config hac0
  let r2 := applyUnits config h1
  let r3 := autoDetect getTZ locInfo elev r2.1
  ⟨r3.1, r3.2.1, r3.2.2, r2.2⟩

/-- One auth provider or MFA module entry as consulted by the duplicate
checks of config.py lines 99-137: its `type` and optional `id`. -/
structure AuthConfig where
  type : String
  id : Option String
deriving DecidableEq

/-- The duplicate-provider message of config.py lines 110-114. -/
def authProviderDupMsg (t : String) : String :=
  "Duplicate auth provider " ++ t ++ " found. Please add unique IDs if "
    ++ "you want to have the same auth provider twice"

/-- The duplicate-MFA-module message of config.py lines 131-135. -/
def authMfaDupMsg (t : String) : String :=
  "Duplicate mfa module " ++ t ++ " found. Please add unique IDs if "
    ++ "you want to have the same mfa module twice"

/-- The shared loop shape of `_no_duplicate_auth_provider` and
`_no_duplicate_auth_mfa_module`: walk the list keeping the set of keys
seen so far and report the message of the first entry whose key was
already seen. -/
def checkDupKeys {α κ : Type} [DecidableEq κ] (key : α → κ)
    (msg : α → String) (seen : List κ) : List α → Option String
  | [] => none
  | c :: rest =>
    if key c ∈ seen then some (msg c)
    else checkDupKeys key msg (key c :: seen) rest

/-- The `(type, optional id)` key of `_no_duplicate_auth_provider`
(config.py line 108). -/
def provKey (c : AuthConfig) : String × Option String := (c.type, c.id)

/-- The `id or type` key of `_no_duplicate_auth_mfa_module` (config.py
line 129). -/
def mfaKey (c : AuthConfig) : String := c.id.getD c.type

/-- Embedding of `_no_duplicate_auth_provider` (config.py lines 99-116):
raises `vol.Invalid` with the duplicate message on the first repeated
`(type, id)` key, otherwise returns the configs unchanged. -/
def _no_duplicate_auth_provider (configs : List AuthConfig) :
    Except String (List AuthConfig) :=
  match checkDupKeys provKey (fun c => authProviderDupMsg c.type) [] configs with
  | some m => .error m
  | none => .ok configs

/-- Embedding of `_no_duplicate_auth_mfa_module` (config.py lines
118-137): raises `vol.Invalid` with the duplicate message on the first
repeated `id or type` key, otherwise returns the configs unchanged. -/
def _no_duplicate_auth_mfa_module (configs : List AuthConfig) :
    Except String (List AuthConfig) :=
  match checkDupKeys mfaKey (fun c => authMfaDupMsg c.type) [] configs with
  | some m => .error m
  | none => .ok configs

/-- Embedding of the error-registry update of `async_notify_setup_error`
(config.py line 791): `errors[component] = errors.get(component) or
display_link`.  The registry maps each failed component to its
show-documentation-link flag. -/
def async_notify_setup_error (errors : List (String × Bool))
    (component : String) (displayLink : Bool) : List (String × Bool) :=
  alistSet errors component
    (((alistGet errors component).getD false) || displayLink)

theorem alistGet_set_self {α : Type} (l : List (String × α)) (k : String)
    (v : α) : alistGet (alistSet l k v) k = some v := by
  induction l with
  | nil => simp [alistGet, alistSet]
  | cons hd t ih =>
    obtain ⟨k2, v2⟩ := hd
    by_cases h : k2 = k
    · simp [alistGet, alistSet, h]
    · simp [alistGet, alistSet, h, ih]

theorem alistGet_set_ne {α : Type} (l : List (String × α)) (k k2 : String)
    (v : α) (h : k ≠ k2) : alistGet (alistSet l k v) k2 = alistGet l k2 := by
  induction l with
  | nil => simp [alistGet, alistSet, h]
  | cons hd t ih =>
    obtain ⟨k3, v3⟩ := hd
    by_cases h3 : k3 = k
    · simp [alistGet, alistSet, h3, h]
    · simp [alistGet, alistSet, h3, ih]

theorem alistGet_append {α : Type} (l1 l2 : List (String × α)) (k : String) :
    alistGet (l1 ++ l2) k =
      match alistGet l1 k with
      | some v => some v
      | none => alistGet l2 k := by
  induction l1 with
  | nil => simp [alistGet]
  | cons hd t ih =>
    obtain ⟨k2, v2⟩ := hd
    by_cases h : k2 = k
    · simp [alistGet, h]
    · simp [alistGet, h, ih]

theorem rm_nil (conf : AList) (err : Option String) :
    _recursive_merge_aux conf [] err = .ok conf err := by
  simp [_recursive_merge_aux]

/-- A scalar entry whose destination already holds a non-null value makes
`_recursive_merge` return the key at once, leaving the destination and the
remaining entries of this level untouched. -/
theorem rm_scalar_conflict (conf : AList) (k : String) (v : Value)
    (rest : AList) (err : Option String) (hv : v.isContainer = false)
    (hc : (pyGet conf k).isNull = false) :
    _recursive_merge_aux conf ((k, v) :: rest) err = .ok conf (some k) := by
  cases v <;> simp_all [_recursive_merge_aux, Value.isContainer]

/-- A scalar entry whose destination is absent or null is written and the
walk continues. -/
theorem rm_scalar_fresh (conf : AList) (k : String) (v : Value)
    (rest : AList) (err : Option String) (hv : v.isContainer = false)
    (hc : (pyGet conf k).isNull = true) :
    _recursive_merge_aux conf ((k, v) :: rest) err =
      _recursive_merge_aux (alistSet conf k v) rest err := by
  cases v <;> simp_all [_recursive_merge_aux, Value.isContainer]

theorem alistSet_set {α : Type} (l : List (String × α)) (k : String)
    (v w : α) : alistSet (alistSet l k v) k w = alistSet l k w := by
  induction l with
  | nil => simp [alistSet]
  | cons hd t ih =>
    obtain ⟨k2, v2⟩ := hd
    by_cases h : k2 = k
    · simp [alistSet, h]
    · simp [alistSet, h, ih]

/-- A non-empty dict entry whose destination holds a dict recurses into it
with a fresh error, stores the merged sub-dict and continues with the
sub-merge's error. -/
theorem rm_dict_ok (conf : AList) (k : String) (d : AList) (rest : AList)
    (err : Option String) (sub sub2 : AList) (suberr : Option String)
    (hd : d.isEmpty = false)
    (hex : alistGetD conf k (.dict []) = .dict sub)
    (hrec : _recursive_merge_aux sub d none = .ok sub2 suberr) :
    _recursive_merge_aux conf ((k, .dict d) :: rest) err =
      _recursive_merge_aux (alistSet conf k (.dict sub2)) rest suberr := by
  rw [_recursive_merge_aux]
  simp [hd, hex, hrec, alistSet_set]

/-- Evaluation of one dict-path `merge_packages_config` entry whose
destination domain already holds a dict.  An empty-string conflict key is
falsy under `if error:` and logs nothing. -/
theorem mde_dict_existing (env : String → CompRes) (st : MergeState)
    (packName compName : String) (ccd existing conf2 : AList)
    (dup : Option String)
    (hcore : compName ≠ CONF_CORE)
    (henv : env (firstWord compName) = .comp false none)
    (hget : alistGet st.config compName = some (.dict existing))
    (hrec : _recursive_merge existing ccd = .ok conf2 dup) :
    mergeDomainEntry env st packName compName (.dict ccd) =
      (⟨alistSet st.config compName (.dict conf2),
        st.errors ++ (match dup with
          | some k =>
            if k.isEmpty then []
            else [⟨packName, compName, dupKeyMsg k⟩]
          | none => [])⟩, false) := by
  cases dup with
  | none =>
    simp [mergeDomainEntry, hcore, henv, Value.isNull, pyGet, hget,
          Option.getD, hrec, pkgErr]
  | some k =>
    cases hk : k.isEmpty <;>
      simp [mergeDomainEntry, hcore, henv, Value.isNull, pyGet, hget,
            Option.getD, hrec, pkgErr, hk]

/-- Evaluation of one dict-path `merge_packages_config` entry whose
destination domain is absent from the config tree.  An empty-string
conflict key is falsy under `if error:` and logs nothing. -/
theorem mde_dict_fresh (env : String → CompRes) (st : MergeState)
    (packName compName : String) (ccd conf2 : AList) (dup : Option String)
    (hcore : compName ≠ CONF_CORE)
    (henv : env (firstWord compName) = .comp false none)
    (hget : alistGet st.config compName = none)
    (hrec : _recursive_merge [] ccd = .ok conf2 dup) :
    mergeDomainEntry env st packName compName (.dict ccd) =
      (⟨alistSet st.config compName (.dict conf2),
        st.errors ++ (match dup with
          | some k =>
            if k.isEmpty then []
            else [⟨packName, compName, dupKeyMsg k⟩]
          | none => [])⟩, false) := by
  cases dup with
  | none =>
    simp [mergeDomainEntry, hcore, henv, Value.isNull, pyGet, hget,
          Option.getD, alistGet_set_self, hrec, alistSet_set, pkgErr]
  | some k =>
    cases hk : k.isEmpty <;>
      simp [mergeDomainEntry, hcore, henv, Value.isNull, pyGet, hget,
            Option.getD, alistGet_set_self, hrec, alistSet_set, pkgErr, hk]

theorem mpe_nil (env : String → CompRes) (st : MergeState)
    (packName : String) :
    mergePackageEntries env st packName [] = (st, false) := by
  rw [mergePackageEntries]

theorem mpe_cons (env : String → CompRes) (st st2 : MergeState)
    (packName c : String) (v : Value) (rest : List (String × Value))
    (h : mergeDomainEntry env st packName c v = (st2, false)) :
    mergePackageEntries env st packName ((c, v) :: rest)
      = mergePackageEntries env st2 packName rest := by
  rw [mergePackageEntries, h]

theorem mpl_nil (env : String → CompRes) (st : MergeState) :
    mergePackagesLoop env st [] = (st, false) := by
  rw [mergePackagesLoop]

theorem mpl_cons (env : String → CompRes) (st st2 : MergeState)
    (pname : String) (entries rest : List (String × Value))
    (h : mergePackageEntries env st pname entries = (st2, false)) :
    mergePackagesLoop env st ((pname, .dict entries) :: rest)
      = mergePackagesLoop env st2 rest := by
  rw [mergePackagesLoop, h]

theorem mpc_dict (env : String → CompRes) (config : AList)
    (pkgs : List (String × Value)) (st : MergeState)
    (hval : packages_config_schema_valid (.dict pkgs) = true)
    (hloop : mergePackagesLoop env ⟨config, []⟩ pkgs = (st, false)) :
    merge_packages_config env config (.dict pkgs) = (st, none) := by
  rw [merge_packages_config, if_pos hval]
  show (match mergePackagesLoop env ⟨config, []⟩ pkgs with
    | (st, true) => (st, some MergeExc.typeErr)
    | (st, false) => (st, none)) = (st, none)
  rw [hloop]

/-- A loader environment in which every domain resolves to a component
with neither a `PLATFORM_SCHEMA` nor a `CONFIG_SCHEMA` (plain dict-merge
semantics). -/
def envDict : String → CompRes := fun _ => .comp false none

/-- A core-config state with every field still unset. -/
def hacEmpty : Hac := ⟨none, none, none, none, none, none⟩

/-- A time-zone resolver that accepts every name. -/
def getTZW : String → Option String := fun s => some s

/-- A platform loader environment in which no platform integration can be
found or imported. -/
def penvNone : PlatEnv := fun _ => none

/-- A platform schema that accepts every entry unchanged. -/
def sbOk : Value → Except Unit Value := fun v => .ok v

/-- C10: the documentation-link flag of the per-load error registry is
monotone: once a component is recorded with the flag true, any later
`async_notify_setup_error` call (for the same or another component, with
any flag, in particular `display_link = False` for the same component)
leaves the recorded flag true. -/
theorem c10_notify_link_monotone (errors : List (String × Bool))
    (component comp2 : String) (dl : Bool)
    (h : alistGet errors component = some true) :
    alistGet (async_notify_setup_error errors comp2 dl) component
      = some true := by
  by_cases hc : comp2 = component
  · subst hc
    simp [async_notify_setup_error, h, alistGet_set_self]
  · simp [async_notify_setup_error, alistGet_set_ne _ _ _ _ hc, h]

/-- C10 witness: a concrete registry holding `mqtt` with the flag true
keeps the flag true after a later call with `display_link = False`. -/
theorem c10_notify_link_monotone_witness :
    alistGet (async_notify_setup_error [("mqtt", true)] "mqtt" false) "mqtt"
      = some true :=
  c10_notify_link_monotone [("mqtt", true)] "mqtt" "mqtt" false rfl

/-- C9: a platform entry that passes the component-level platform schema
but names a platform whose integration cannot be found or imported
(`penv n = none`) is dropped silently by
`async_process_component_config`: `processEntry` yields no surviving entry
and no logged error. -/
theorem c9_unresolvable_platform_silently_dropped (penv : PlatEnv)
    (domain : String) (sb : Value → Except Unit Value) (n : String)
    (v w : Value) (hs : sb v = .ok w) (hp : penv n = none) :
    processEntry penv domain sb (some n, v) = (none, []) := by
  simp [processEntry, hs, hp]

/-- C9 witness: a concrete entry naming an unresolvable platform is
dropped without any log entry. -/
theorem c9_unresolvable_platform_silently_dropped_witness :
    processEntry penvNone "light" sbOk (some "foo", .dict []) = (none, []) :=
  c9_unresolvable_platform_silently_dropped penvNone "light" sbOk "foo"
    (.dict []) (.dict []) rfl rfl

/-- C6: unit-system resolution precedence in core-config processing: an
explicit `unit_system` key alone determines the units (imperial exactly
when it equals the imperial constant, metric otherwise) with no
deprecation warning; otherwise a `temperature_unit` key maps Celsius to
metric and anything else to imperial while logging the deprecation
warning; otherwise the units are left unchanged for auto-detection. -/
theorem c6_unit_system_precedence (config : AList) (hac : Hac) :
    (∀ v, alistGet config "unit_system" = some v →
      (applyUnits config hac).1.units
          = some (if v.eqStr CONF_UNIT_SYSTEM_IMPERIAL then UnitSystem.imperial
                  else UnitSystem.metric)
        ∧ (applyUnits config hac).2 = false) ∧
    (alistGet config "unit_system" = none →
      ∀ v, alistGet config "temperature_unit" = some v →
        (applyUnits config hac).1.units
            = some (if v.eqStr TEMP_CELSIUS then UnitSystem.metric
                    else UnitSystem.imperial)
          ∧ (applyUnits config hac).2 = true) ∧
    (alistGet config "unit_system" = none →
      alistGet config "temperature_unit" = none →
      applyUnits config hac = (hac, false)) := by
  refine ⟨?_, ?_, ?_⟩ <;> intros <;> simp_all [applyUnits]

/-- C6 witness: concrete configs exercising the three precedence cases. -/
theorem c6_unit_system_precedence_witness :
    ((applyUnits [("unit_system", Value.str "imperial")] hacEmpty).1.units
        = some (if (Value.str "imperial").eqStr CONF_UNIT_SYSTEM_IMPERIAL
                then UnitSystem.imperial else UnitSystem.metric)
      ∧ (applyUnits [("unit_system", Value.str "imperial")] hacEmpty).2
          = false) ∧
    ((applyUnits [("temperature_unit", Value.str "°C")] hacEmpty).1.units
        = some (if (Value.str "°C").eqStr TEMP_CELSIUS then UnitSystem.metric
                else UnitSystem.imperial)
      ∧ (applyUnits [("temperature_unit", Value.str "°C")] hacEmpty).2
          = true) ∧
    applyUnits [] hacEmpty = (hacEmpty, false) :=
  ⟨(c6_unit_system_precedence [("unit_system", Value.str "imperial")]
      hacEmpty).1 _ rfl,
   (c6_unit_system_precedence [("temperature_unit", Value.str "°C")]
      hacEmpty).2.1 rfl _ rfl,
   (c6_unit_system_precedence [] hacEmpty).2.2 rfl rfl⟩

/-- C5: when latitude, longitude, units, time zone and elevation are all
set after the explicit-key and unit-resolution phases, core-config
processing performs neither the network location lookup nor the network
elevation lookup. -/
theorem c5_all_explicit_no_lookup (getTZ : String → Option String)
    (locInfo : Option LocInfo) (elev : Value) (config : AList) (hac0 : Hac)
    (h : allKnown (applyUnits config (applyExplicit getTZ config hac0)).1
      = true) :
    (async_process_ha_core_config getTZ locInfo elev config hac0).locationLookup
        = false
      ∧ (async_process_ha_core_config getTZ locInfo elev config
          hac0).elevationLookup = false := by
  simp [async_process_ha_core_config, autoDetect, h]

/-- C5 witness: a concrete core config setting all five fields performs
no lookup. -/
theorem c5_all_explicit_no_lookup_witness :
    (async_process_ha_core_config getTZW none (.int 0)
        [("latitude", .int 1), ("longitude", .int 2), ("elevation", .int 3),
         ("time_zone", .str "UTC"), ("unit_system", .str "metric")]
        hacEmpty).locationLookup = false
      ∧ (async_process_ha_core_config getTZW none (.int 0)
          [("latitude", .int 1), ("longitude", .int 2), ("elevation", .int 3),
           ("time_zone", .str "UTC"), ("unit_system", .str "metric")]
          hacEmpty).elevationLookup = false :=
  c5_all_explicit_no_lookup getTZW none (.int 0)
    [("latitude", .int 1), ("longitude", .int 2), ("elevation", .int 3),
     ("time_zone", .str "UTC"), ("unit_system", .str "metric")]
    hacEmpty rfl

/-- C8: `merge_packages_config` validates the packages against the
slug-keyed package schema before merging anything: when the schema is
violated (in particular when some package name is not a slug, or some
domain entry of a package is neither a dict nor a list nor null) the call
raises the validation error with the config tree untouched and no errors
logged, so no domain of any package has been merged. -/
theorem c8_packages_schema_checked_first (env : String → CompRes)
    (config : AList) (packages : Value) :
    (packages_config_schema_valid packages = false →
      merge_packages_config env config packages
        = (⟨config, []⟩, some MergeExc.invalid)) ∧
    (∀ pkgs n pv, packages = .dict pkgs → (n, pv) ∈ pkgs →
      (isSlug n = false ∨ package_body_valid pv = false) →
      packages_config_schema_valid packages = false) := by
  constructor
  · intro h
    simp [merge_packages_config, h]
  · rintro pkgs n pv rfl hmem hbad
    cases hval : packages_config_schema_valid (.dict pkgs) with
    | false => rfl
    | true =>
      exfalso
      have hall := (List.all_eq_true.mp hval) (n, pv) hmem
      rcases hbad with hb | hb <;> simp_all

/-- C8 witness: a package whose name is not a slug is rejected up front
and nothing is merged. -/
theorem c8_packages_schema_checked_first_witness :
    merge_packages_config envDict [("x", .int 7)]
        (.dict [("Bad Name", .dict [])])
      = (⟨[("x", .int 7)], []⟩, some MergeExc.invalid) :=
  (c8_packages_schema_checked_first envDict [("x", .int 7)]
    (.dict [("Bad Name", .dict [])])).1 (by decide)

/-- C3: for a domain classified list-style (the component has a
`PLATFORM_SCHEMA`, or its `CONFIG_SCHEMA` is introspected as
list-shaped), merging a package fragment replaces the domain entry with
the coercion to a list of the existing entry concatenated with the
coercion to a list of the fragment (existing first, fragment second), and
merging a falsy (empty) fragment leaves the config tree unchanged; no
error is recorded either way. -/
theorem c3_list_style_append (env : String → CompRes) (config : AList)
    (n d : String) (v : Value) (hasPlat : Bool) (ck : Option MergeKind)
    (hslug : isSlug n = true)
    (hcore : d ≠ CONF_CORE)
    (hbody : package_body_valid (.dict [(d, v)]) = true)
    (henv : env (firstWord d) = .comp hasPlat ck)
    (hlist : hasPlat = true ∨ ck = some MergeKind.list) :
    merge_packages_config env config (.dict [(n, .dict [(d, v)])]) =
      (⟨if v.falsy then config
        else alistSet config d
          (.list (ensure_list (pyGet config d) ++ ensure_list v)), []⟩,
       none) := by
  have hval : packages_config_schema_valid (.dict [(n, .dict [(d, v)])])
      = true := by
    simp [packages_config_schema_valid, package_body_valid, hslug]
    simpa [package_body_valid] using hbody
  have hentry : mergeDomainEntry env ⟨config, []⟩ n d v =
      (⟨if v.falsy then config
        else alistSet config d
          (.list (ensure_list (pyGet config d) ++ ensure_list v)), []⟩,
       false) := by
    rcases hlist with h | h
    · subst h
      cases hf : v.falsy <;>
        simp [mergeDomainEntry, hcore, henv, hf]
    · subst h
      cases hasPlat <;> cases hf : v.falsy <;>
        simp [mergeDomainEntry, hcore, henv, hf]
  simp [merge_packages_config, hval, mergePackagesLoop, mergePackageEntries,
        hentry]

/-- C3 witness: the spec scenario where two platform-style fragments
appended in order would each extend the list; here one fragment is
appended to an existing entry and an empty fragment is a no-op. -/
theorem c3_list_style_append_witness :
    (merge_packages_config (fun _ => CompRes.comp true none)
        [("light", .dict [("platform", .str "test")])]
        (.dict [("pkg1", .dict [("light", .dict [("platform", .str "test2")])])])
      = (⟨if (Value.dict [("platform", .str "test2")]).falsy then
            [("light", .dict [("platform", .str "test")])]
          else alistSet [("light", .dict [("platform", .str "test")])] "light"
            (.list (ensure_list
                (pyGet [("light", .dict [("platform", .str "test")])] "light")
              ++ ensure_list (.dict [("platform", .str "test2")]))), []⟩,
         none)) ∧
    (merge_packages_config (fun _ => CompRes.comp true none)
        [("light", .dict [("platform", .str "test")])]
        (.dict [("pkg1", .dict [("light", .dict [])])])
      = (⟨if (Value.dict ([] : AList)).falsy then
            [("light", .dict [("platform", .str "test")])]
          else alistSet [("light", .dict [("platform", .str "test")])] "light"
            (.list (ensure_list
                (pyGet [("light", .dict [("platform", .str "test")])] "light")
              ++ ensure_list (.dict []))), []⟩,
         none)) :=
  ⟨c3_list_style_append (fun _ => CompRes.comp true none)
      [("light", .dict [("platform", .str "test")])] "pkg1" "light"
      (.dict [("platform", .str "test2")]) true none (by decide) (by decide)
      (by decide) rfl (Or.inl rfl),
   c3_list_style_append (fun _ => CompRes.comp true none)
      [("light", .dict [("platform", .str "test")])] "pkg1" "light"
      (.dict []) true none (by decide) (by decide) (by decide) rfl
      (Or.inl rfl)⟩

/-- C1 counterexample: two packages merged in order into a fresh tree both
set the scalar leaf key `a` of domain `dom` (nested under `sub`), yet the
merge reports no duplicate-key error at all — the conflict returned from
the nested merge is overwritten when the second package's later sibling
key `zzz` is merged — so the claim that exactly one duplicate-key error is
reported is false (the first value is, however, retained). -/
theorem c1_counterexample :
    merge_packages_config envDict []
        (.dict [("p1", .dict [("dom", .dict [("sub", .dict [("a", .int 1)])])]),
                ("p2", .dict [("dom", .dict [("sub", .dict [("a", .int 2)]),
                                             ("zzz", .dict [("x", .int 3)])])])])
      = (⟨[("dom", .dict [("sub", .dict [("a", .int 1)]),
                          ("zzz", .dict [("x", .int 3)])])], []⟩, none) := by
  have hma1 : _recursive_merge_aux [] [("a", Value.int 1)] none
      = .ok [("a", Value.int 1)] none := by
    rw [rm_scalar_fresh [] "a" (Value.int 1) [] none rfl rfl]
    exact rm_nil _ _
  have hm1 : _recursive_merge [] [("sub", Value.dict [("a", Value.int 1)])]
      = .ok [("sub", Value.dict [("a", Value.int 1)])] none := by
    rw [_recursive_merge,
        rm_dict_ok [] "sub" [("a", Value.int 1)] [] none [] [("a", Value.int 1)]
          none rfl rfl hma1]
    exact rm_nil _ _
  have hma2 : _recursive_merge_aux [("a", Value.int 1)] [("a", Value.int 2)]
      none = .ok [("a", Value.int 1)] (some "a") :=
    rm_scalar_conflict [("a", Value.int 1)] "a" (Value.int 2) [] none rfl rfl
  have hmx : _recursive_merge_aux [] [("x", Value.int 3)] none
      = .ok [("x", Value.int 3)] none := by
    rw [rm_scalar_fresh [] "x" (Value.int 3) [] none rfl rfl]
    exact rm_nil _ _
  have hm2 : _recursive_merge [("sub", Value.dict [("a", Value.int 1)])]
      [("sub", Value.dict [("a", Value.int 2)]),
       ("zzz", Value.dict [("x", Value.int 3)])]
      = .ok [("sub", Value.dict [("a", Value.int 1)]),
             ("zzz", Value.dict [("x", Value.int 3)])] none := by
    rw [_recursive_merge,
        rm_dict_ok [("sub", Value.dict [("a", Value.int 1)])] "sub"
          [("a", Value.int 2)]
          [("zzz", Value.dict [("x", Value.int 3)])] none
          [("a", Value.int 1)] [("a", Value.int 1)] (some "a") rfl rfl hma2]
    show _recursive_merge_aux [("sub", Value.dict [("a", Value.int 1)])]
        [("zzz", Value.dict [("x", Value.int 3)])] (some "a") = _
    rw [rm_dict_ok [("sub", Value.dict [("a", Value.int 1)])] "zzz"
          [("x", Value.int 3)] [] (some "a") [] [("x", Value.int 3)] none
          rfl rfl hmx]
    exact rm_nil _ _
  have he1 : mergeDomainEntry envDict ⟨[], []⟩ "p1" "dom"
      (.dict [("sub", .dict [("a", .int 1)])])
      = (⟨[("dom", .dict [("sub", .dict [("a", .int 1)])])], []⟩, false) :=
    mde_dict_fresh envDict ⟨[], []⟩ "p1" "dom"
      [("sub", .dict [("a", .int 1)])] [("sub", .dict [("a", .int 1)])] none
      (by decide) rfl rfl hm1
  have he2 : mergeDomainEntry envDict
      ⟨[("dom", .dict [("sub", .dict [("a", .int 1)])])], []⟩ "p2" "dom"
      (.dict [("sub", .dict [("a", .int 2)]), ("zzz", .dict [("x", .int 3)])])
      = (⟨[("dom", .dict [("sub", .dict [("a", .int 1)]),
                          ("zzz", .dict [("x", .int 3)])])], []⟩, false) :=
    mde_dict_existing envDict
      ⟨[("dom", .dict [("sub", .dict [("a", .int 1)])])], []⟩ "p2" "dom"
      [("sub", .dict [("a", .int 2)]), ("zzz", .dict [("x", .int 3)])]
      [("sub", .dict [("a", .int 1)])]
      [("sub", .dict [("a", .int 1)]), ("zzz", .dict [("x", .int 3)])] none
      (by decide) rfl rfl hm2
  apply mpc_dict _ _ _ _ (by decide)
  rw [mpl_cons _ _ _ _ _ _
        ((mpe_cons _ _ _ _ _ _ _ he1).trans (mpe_nil _ _ _)),
      mpl_cons _ _ _ _ _ _
        ((mpe_cons _ _ _ _ _ _ _ he2).trans (mpe_nil _ _ _))]
  exact mpl_nil _ _

/-- C1 (amended): when the conflicting scalar leaf key is a non-empty
direct key of the domain fragment of both packages, merging the two
packages in order into a fresh tree reports exactly one duplicate-key
error for that (domain, key) pair — logged against the second package —
and the domain entry retains the value set by the first package.  The
error is dropped (with the first value still retained) in two cases: a
conflict nested inside sub-dictionaries whose returned key is overwritten
by a later sibling dict-valued key of the same fragment, and an
empty-string key, which is falsy under the `if error:` truthiness guard
of config.py line 684. -/
theorem c1_amended_first_value_kept_one_error (env : String → CompRes)
    (n1 n2 d k : String) (v1 v2 : Value)
    (h1 : isSlug n1 = true) (h2 : isSlug n2 = true)
    (hd : d ≠ CONF_CORE)
    (henv : env (firstWord d) = .comp false none)
    (hv1c : v1.isContainer = false) (hv1n : v1.isNull = false)
    (hv2c : v2.isContainer = false)
    (hk : k.isEmpty = false) :
    merge_packages_config env []
        (.dict [(n1, .dict [(d, .dict [(k, v1)])]),
                (n2, .dict [(d, .dict [(k, v2)])])])
      = (⟨[(d, .dict [(k, v1)])], [⟨n2, d, dupKeyMsg k⟩]⟩, none) := by
  have hm1 : _recursive_merge [] [(k, v1)] = .ok [(k, v1)] none := by
    rw [_recursive_merge,
        rm_scalar_fresh _ _ _ _ _ hv1c
          (by simp [pyGet, alistGet, Value.isNull])]
    exact rm_nil _ _
  have hm2 : _recursive_merge [(k, v1)] [(k, v2)] = .ok [(k, v1)] (some k) := by
    rw [_recursive_merge]
    exact rm_scalar_conflict _ _ _ _ _ hv2c
      (by simp [pyGet, alistGet, hv1n])
  have hval : packages_config_schema_valid
      (.dict [(n1, .dict [(d, .dict [(k, v1)])]),
              (n2, .dict [(d, .dict [(k, v2)])])]) = true := by
    simp [packages_config_schema_valid, package_body_valid, h1, h2]
  have he1 : mergeDomainEntry env ⟨[], []⟩ n1 d (.dict [(k, v1)])
      = (⟨[(d, .dict [(k, v1)])], []⟩, false) := by
    simp [mergeDomainEntry, hd, henv, Value.isNull, pyGet, alistGet,
          alistSet, hm1]
  have he2 : mergeDomainEntry env ⟨[(d, .dict [(k, v1)])], []⟩ n2 d
      (.dict [(k, v2)])
      = (⟨[(d, .dict [(k, v1)])], [⟨n2, d, dupKeyMsg k⟩]⟩, false) := by
    simp [mergeDomainEntry, hd, henv, Value.isNull, pyGet, alistGet,
          alistSet, hm2, pkgErr, hk]
  simp [merge_packages_config, hval, mergePackagesLoop, mergePackageEntries,
        he1, he2]

/-- C1 witness: the spec scenario — two packages both set `http.port`
(1234 first, 5678 second); one duplicate-key error for `http`/`port` is
logged against the second package and the value 1234 is kept. -/
theorem c1_amended_first_value_kept_one_error_witness :
    merge_packages_config envDict []
        (.dict [("pkg1", .dict [("http", .dict [("port", .int 1234)])]),
                ("pkg2", .dict [("http", .dict [("port", .int 5678)])])])
      = (⟨[("http", .dict [("port", .int 1234)])],
          [⟨"pkg2", "http", dupKeyMsg "port"⟩]⟩, none) :=
  c1_amended_first_value_kept_one_error envDict "pkg1" "pkg2" "http" "port"
    (.int 1234) (.int 5678) (by decide) (by decide) (by decide) rfl rfl rfl
    rfl (by decide)

/-- C2 counterexample: a package fragment with the conflicting key `a`
followed by the fresh key `b` is merged into a dict-shaped domain; the
duplicate-key conflict on `a` is recorded, but `b` is NOT merged into the
destination — the rest of that domain's merge does not continue past the
conflict, so the claim that every other key of the fragment is still
merged is false. -/
theorem c2_counterexample :
    merge_packages_config envDict [("dom", .dict [("a", .int 1)])]
        (.dict [("p1", .dict [("dom", .dict [("a", .int 2), ("b", .int 3)])])])
      = (⟨[("dom", .dict [("a", .int 1)])],
          [⟨"p1", "dom", dupKeyMsg "a"⟩]⟩, none) := by
  have hm : _recursive_merge [("a", Value.int 1)]
      [("a", Value.int 2), ("b", Value.int 3)]
      = .ok [("a", Value.int 1)] (some "a") := by
    rw [_recursive_merge]
    exact rm_scalar_conflict [("a", Value.int 1)] "a" (Value.int 2)
      [("b", Value.int 3)] none rfl rfl
  have he : mergeDomainEntry envDict ⟨[("dom", .dict [("a", .int 1)])], []⟩
      "p1" "dom" (.dict [("a", .int 2), ("b", .int 3)])
      = (⟨[("dom", .dict [("a", .int 1)])],
          [⟨"p1", "dom", dupKeyMsg "a"⟩]⟩, false) :=
    mde_dict_existing envDict ⟨[("dom", .dict [("a", .int 1)])], []⟩
      "p1" "dom" [("a", .int 2), ("b", .int 3)] [("a", .int 1)]
      [("a", .int 1)] (some "a") (by decide) rfl rfl hm
  apply mpc_dict _ _ _ _ (by decide)
  rw [mpl_cons _ _ _ _ _ _
        ((mpe_cons _ _ _ _ _ _ _ he).trans (mpe_nil _ _ _))]
  exact mpl_nil _ _

/-- C2 (amended): a duplicate-key conflict on a scalar entry makes the
merge of that nesting level of the fragment stop at once: the destination
level is returned unchanged with the conflicting key reported, and the
remaining entries of the fragment at that level (`rest`) are not merged;
keys merged before the conflict, enclosing levels, other domains and other
packages are unaffected. -/
theorem c2_amended_conflict_stops_level (conf : AList) (k : String)
    (v : Value) (rest : AList) (err : Option String)
    (hv : v.isContainer = false)
    (hc : (pyGet conf k).isNull = false) :
    _recursive_merge_aux conf ((k, v) :: rest) err = .ok conf (some k) :=
  rm_scalar_conflict conf k v rest err hv hc

/-- C2 witness: with destination `a = 1`, the fragment `a = 2, b = 3`
stops at the conflict on `a`; `b` is not merged. -/
theorem c2_amended_conflict_stops_level_witness :
    _recursive_merge_aux [("a", .int 1)] [("a", .int 2), ("b", .int 3)] none
      = .ok [("a", .int 1)] (some "a") :=
  c2_amended_conflict_stops_level [("a", .int 1)] "a" (.int 2)
    [("b", .int 3)] none rfl rfl

theorem checkDupKeys_eq_none_iff {α κ : Type} [DecidableEq κ] (key : α → κ)
    (msg : α → String) :
    ∀ (l : List α) (seen : List κ),
      checkDupKeys key msg seen l = none ↔
        (l.map key).Nodup ∧ ∀ k ∈ l.map key, k ∉ seen := by
  intro l
  induction l with
  | nil => intro seen; simp [checkDupKeys]
  | cons c rest ih =>
    intro seen
    by_cases h : key c ∈ seen
    · refine iff_of_false (by simp [checkDupKeys, h]) ?_
      rintro ⟨-, hall⟩
      exact hall (key c) (by simp) h
    · rw [show checkDupKeys key msg seen (c :: rest)
          = checkDupKeys key msg (key c :: seen) rest by
            simp [checkDupKeys, h]]
      rw [ih (key c :: seen)]
      simp only [List.map_cons, List.nodup_cons, List.mem_cons]
      constructor
      · rintro ⟨hnd, hall⟩
        refine ⟨⟨fun hmem => hall (key c) hmem (Or.inl rfl), hnd⟩, ?_⟩
        rintro k (rfl | hk)
        · exact h
        · exact fun hks => hall k hk (Or.inr hks)
      · rintro ⟨⟨hnotin, hnd⟩, hall⟩
        refine ⟨hnd, ?_⟩
        intro k hk
        rintro (rfl | hks)
        · exact hnotin hk
        · exact hall k (Or.inr hk) hks

theorem checkDupKeys_eq_some {α κ : Type} [DecidableEq κ] (key : α → κ)
    (msg : α → String) :
    ∀ (l : List α) (seen : List κ) (m : String),
      checkDupKeys key msg seen l = some m →
      ∃ c, c ∈ l ∧ m = msg c ∧
        (key c ∈ seen ∨
          2 ≤ (l.map key).countP (fun x => decide (x = key c))) := by
  intro l
  induction l with
  | nil => intro seen m h; simp [checkDupKeys] at h
  | cons c rest ih =>
    intro seen m h
    by_cases hm : key c ∈ seen
    · refine ⟨c, by simp, ?_, Or.inl hm⟩
      simp [checkDupKeys, hm] at h
      exact h.symm
    · have h2 : checkDupKeys key msg (key c :: seen) rest = some m := by
        simpa [checkDupKeys, hm] using h
      obtain ⟨c2, hc2mem, hc2msg, hc2or⟩ := ih (key c :: seen) m h2
      have hmemmap : key c2 ∈ rest.map key := List.mem_map_of_mem key hc2mem
      have hpos :
          0 < (rest.map key).countP (fun x => decide (x = key c2)) :=
        List.countP_pos_iff.mpr ⟨key c2, hmemmap, by simp⟩
      rcases hc2or with hin | hcount
      · rcases List.mem_cons.mp hin with heq | hseen
        · refine ⟨c2, by simp [hc2mem], hc2msg, Or.inr ?_⟩
          have hd2 : decide (key c = key c2) = true := by simp [heq]
          rw [List.map_cons, List.countP_cons, hd2]
          simp only [if_true]
          omega
        · exact ⟨c2, by simp [hc2mem], hc2msg, Or.inl hseen⟩
      · refine ⟨c2, by simp [hc2mem], hc2msg, Or.inr ?_⟩
        rw [List.map_cons, List.countP_cons]
        exact le_trans hcount (Nat.le_add_right _ _)

/-- C7: the core-config schema duplicate checks: the auth-provider list
passes `_no_duplicate_auth_provider` unchanged exactly when the `(type,
optional id)` keys are pairwise distinct, and on a duplicate the raised
validation error carries the duplicate-provider message naming the type of
an entry whose key occurs at least twice; the MFA-module list behaves the
same with the `id or type` key and the duplicate-MFA message. -/
theorem c7_auth_duplicate_detection (provs mfas : List AuthConfig) :
    (_no_duplicate_auth_provider provs = .ok provs ↔
      (provs.map provKey).Nodup) ∧
    (¬ (provs.map provKey).Nodup →
      ∃ c, c ∈ provs ∧
        2 ≤ (provs.map provKey).countP (fun x => decide (x = provKey c)) ∧
        _no_duplicate_auth_provider provs
          = .error (authProviderDupMsg c.type)) ∧
    (_no_duplicate_auth_mfa_module mfas = .ok mfas ↔
      (mfas.map mfaKey).Nodup) ∧
    (¬ (mfas.map mfaKey).Nodup →
      ∃ c, c ∈ mfas ∧
        2 ≤ (mfas.map mfaKey).countP (fun x => decide (x = mfaKey c)) ∧
        _no_duplicate_auth_mfa_module mfas
          = .error (authMfaDupMsg c.type)) := by
  have hprov :
      _no_duplicate_auth_provider provs = .ok provs ↔
        (provs.map provKey).Nodup := by
    cases hcd : checkDupKeys provKey (fun c => authProviderDupMsg c.type)
        [] provs with
    | none =>
      have hok : _no_duplicate_auth_provider provs = .ok provs := by
        simp [_no_duplicate_auth_provider, hcd]
      exact iff_of_true hok
        ((checkDupKeys_eq_none_iff provKey
          (fun c => authProviderDupMsg c.type) provs []).mp hcd).1
    | some m =>
      have herr : _no_duplicate_auth_provider provs = .error m := by
        simp [_no_duplicate_auth_provider, hcd]
      refine iff_of_false (by simp [herr]) ?_
      intro hnd
      have hnone := (checkDupKeys_eq_none_iff provKey
        (fun c => authProviderDupMsg c.type) provs []).mpr ⟨hnd, by simp⟩
      rw [hnone] at hcd
      exact Option.noConfusion hcd
  have hmfa :
      _no_duplicate_auth_mfa_module mfas = .ok mfas ↔
        (mfas.map mfaKey).Nodup := by
    cases hcd : checkDupKeys mfaKey (fun c => authMfaDupMsg c.type)
        [] mfas with
    | none =>
      have hok : _no_duplicate_auth_mfa_module mfas = .ok mfas := by
        simp [_no_duplicate_auth_mfa_module, hcd]
      exact iff_of_true hok
        ((checkDupKeys_eq_none_iff mfaKey
          (fun c => authMfaDupMsg c.type) mfas []).mp hcd).1
    | some m =>
      have herr : _no_duplicate_auth_mfa_module mfas = .error m := by
        simp [_no_duplicate_auth_mfa_module, hcd]
      refine iff_of_false (by simp [herr]) ?_
      intro hnd
      have hnone := (checkDupKeys_eq_none_iff mfaKey
        (fun c => authMfaDupMsg c.type) mfas []).mpr ⟨hnd, by simp⟩
      rw [hnone] at hcd
      exact Option.noConfusion hcd
  refine ⟨hprov, ?_, hmfa, ?_⟩
  · intro hdup
    cases hcd : checkDupKeys provKey (fun c => authProviderDupMsg c.type)
        [] provs with
    | none =>
      exact absurd ((checkDupKeys_eq_none_iff provKey
        (fun c => authProviderDupMsg c.type) provs []).mp hcd).1 hdup
    | some m =>
      obtain ⟨c, hcmem, hcmsg, hcor⟩ := checkDupKeys_eq_some provKey
        (fun c => authProviderDupMsg c.type) provs [] m hcd
      refine ⟨c, hcmem, ?_, ?_⟩
      · rcases hcor with hin | hcount
        · simp at hin
        · exact hcount
      · simp [_no_duplicate_auth_provider, hcd, hcmsg]
  · intro hdup
    cases hcd : checkDupKeys mfaKey (fun c => authMfaDupMsg c.type)
        [] mfas with
    | none =>
      exact absurd ((checkDupKeys_eq_none_iff mfaKey
        (fun c => authMfaDupMsg c.type) mfas []).mp hcd).1 hdup
    | some m =>
      obtain ⟨c, hcmem, hcmsg, hcor⟩ := checkDupKeys_eq_some mfaKey
        (fun c => authMfaDupMsg c.type) mfas [] m hcd
      refine ⟨c, hcmem, ?_, ?_⟩
      · rcases hcor with hin | hcount
        · simp at hin
        · exact hcount
      · simp [_no_duplicate_auth_mfa_module, hcd, hcmsg]

/-- C7 witness: a unique-keyed provider list and MFA list pass through
unchanged; a list repeating the `(type, id)` pair is not accepted. -/
theorem c7_auth_duplicate_detection_witness :
    _no_duplicate_auth_provider
        [⟨"openpeerpower", none⟩, ⟨"openpeerpower", some "b"⟩]
      = .ok [⟨"openpeerpower", none⟩, ⟨"openpeerpower", some "b"⟩] ∧
    _no_duplicate_auth_mfa_module [⟨"totp", some "totp"⟩]
      = .ok [⟨"totp", some "totp"⟩] ∧
    ¬ _no_duplicate_auth_provider
        [⟨"openpeerpower", none⟩, ⟨"openpeerpower", none⟩]
      = .ok [⟨"openpeerpower", none⟩, ⟨"openpeerpower", none⟩] :=
  ⟨(c7_auth_duplicate_detection
      [⟨"openpeerpower", none⟩, ⟨"openpeerpower", some "b"⟩] []).1.mpr
      (by decide),
   (c7_auth_duplicate_detection [] [⟨"totp", some "totp"⟩]).2.2.1.mpr
      (by decide),
   fun h =>
     (by decide :
       ¬ ([⟨"openpeerpower", none⟩,
           (⟨"openpeerpower", none⟩ : AuthConfig)].map provKey).Nodup)
     ((c7_auth_duplicate_detection
       [⟨"openpeerpower", none⟩, ⟨"openpeerpower", none⟩] []).1.mp h)⟩

theorem platformLoop_eq (penv : PlatEnv) (domain : String)
    (sb : Value → Except Unit Value) :
    ∀ l, platformLoop penv domain sb l =
      (l.filterMap (fun e => (processEntry penv domain sb e).1),
       l.flatMap (fun e => (processEntry penv domain sb e).2)) := by
  intro l
  induction l with
  | nil => simp [platformLoop]
  | cons e rest ih =>
    rw [platformLoop, ih]
    cases he : (processEntry penv domain sb e).1 <;>
      simp [List.filterMap_cons, he]

theorem alistGet_some_mem_keys {α : Type} (l : List (String × α))
    (k : String) (v : α) (h : alistGet l k = some v) :
    k ∈ l.map Prod.fst := by
  induction l with
  | nil => simp [alistGet] at h
  | cons hd t ih =>
    obtain ⟨k2, v2⟩ := hd
    by_cases h2 : k2 = k
    · simp [h2]
    · simp only [alistGet, if_neg h2] at h
      simp [ih h]

theorem alistGet_filter_out (l : AList) (ks : List String) (k : String)
    (hk : k ∈ ks) :
    alistGet (l.filter fun kv => !(decide (kv.1 ∈ ks))) k = none := by
  induction l with
  | nil => simp [alistGet]
  | cons hd t ih =>
    obtain ⟨k2, v2⟩ := hd
    by_cases h2 : k2 ∈ ks
    · simp [List.filter_cons, h2, ih]
    · have hne : k2 ≠ k := fun he => h2 (he ▸ hk)
      simp [List.filter_cons, h2, alistGet, hne, ih]

theorem alistGet_filter_none (l : AList) (p : String × Value → Bool)
    (k : String) (h : alistGet l k = none) :
    alistGet (l.filter p) k = none := by
  induction l with
  | nil => simp [alistGet]
  | cons hd t ih =>
    obtain ⟨k2, v2⟩ := hd
    by_cases h2 : k2 = k
    · simp [alistGet, h2] at h
    · simp only [alistGet, if_neg h2] at h
      cases hp : p (k2, v2) <;>
        simp [List.filter_cons, hp, alistGet, h2, ih h]

theorem domain_key_filtered (config : AList) (domain : String) :
    alistGet (config.filter fun kv =>
      !(decide (kv.1 ∈ extract_domain_configs config domain))) domain
      = none := by
  by_cases h : domain ∈ extract_domain_configs config domain
  · exact alistGet_filter_out _ _ _ h
  · apply alistGet_filter_none
    cases hg : alistGet config domain with
    | none => rfl
    | some v =>
      exfalso
      apply h
      have hmem := alistGet_some_mem_keys config domain v hg
      simp [extract_domain_configs, List.mem_filter, hmem]

/-- C4: `async_process_component_config` never lets a validation failure
escape.  With a whole-of-domain `CONFIG_SCHEMA` that rejects the config,
the function returns `none` and reports the error for the domain instead
of raising.  With a platform-style schema, each failing entry is dropped
individually: the returned config maps the domain key to exactly the list
of surviving validated entries, and every original raw key for that
domain (other than the rebuilt domain key itself) is removed. -/
theorem c4_validation_never_escapes (penv : PlatEnv)
    (integ : IntegrationModel) (config : AList) :
    (∀ f, integ.configSchema = some f → f (.dict config) = .error () →
      async_process_component_config penv integ config
        = (none, [integ.domain])) ∧
    (∀ sb, integ.configSchema = none → integ.platformSchemaBase = some sb →
      (async_process_component_config penv integ config).1 =
        some ((config.filter fun kv =>
                !(decide (kv.1 ∈ extract_domain_configs config integ.domain)))
              ++ [(integ.domain,
                   .list ((config_per_platform config integ.domain).filterMap
                     fun e => (processEntry penv integ.domain sb e).1))]) ∧
      alistGet ((async_process_component_config penv integ config).1.getD [])
          integ.domain
        = some (.list ((config_per_platform config integ.domain).filterMap
            fun e => (processEntry penv integ.domain sb e).1)) ∧
      ∀ kk, kk ∈ extract_domain_configs config integ.domain →
        kk ≠ integ.domain →
        alistGet ((async_process_component_config penv integ
            config).1.getD []) kk = none) := by
  constructor
  · intro f hf herr
    simp [async_process_component_config, hf, herr]
  · intro sb h1 h2
    have hres : (async_process_component_config penv integ config).1 =
        some ((config.filter fun kv =>
                !(decide (kv.1 ∈ extract_domain_configs config integ.domain)))
              ++ [(integ.domain,
                   .list ((config_per_platform config integ.domain).filterMap
                     fun e => (processEntry penv integ.domain sb e).1))]) := by
      simp [async_process_component_config, h1, h2, platformLoop_eq]
    refine ⟨hres, ?_, ?_⟩
    · rw [hres]
      simp only [Option.getD_some]
      rw [alistGet_append]
      rw [domain_key_filtered config integ.domain]
      simp [alistGet]
    · intro kk hkk hkkne
      rw [hres]
      simp only [Option.getD_some]
      rw [alistGet_append]
      rw [alistGet_filter_out config _ kk hkk]
      simp only [alistGet]
      rw [if_neg (fun h => hkkne h.symm)]

/-- C4 witness: a rejecting whole-of-domain schema makes the call return
`none` with the error reported; with a platform-style schema the domain
key is rebuilt from the surviving entries and the raw entries removed. -/
theorem c4_validation_never_escapes_witness :
    async_process_component_config penvNone
        ⟨"mydom", some (fun _ => .error ()), none⟩
        [("x", .int 5), ("mydom", .dict [("a", .int 1)])]
      = (none, ["mydom"]) ∧
    (async_process_component_config penvNone ⟨"mydom", none, some sbOk⟩
        [("x", .int 5), ("mydom", .dict [("a", .int 1)])]).1
      = some [("x", .int 5),
              ("mydom", .list [.dict [("a", .int 1)]])] :=
  ⟨(c4_validation_never_escapes penvNone
      ⟨"mydom", some (fun _ => .error ()), none⟩
      [("x", .int 5), ("mydom", .dict [("a", .int 1)])]).1
      (fun _ => .error ()) rfl rfl,
   ((c4_validation_never_escapes penvNone ⟨"mydom", none, some sbOk⟩
      [("x", .int 5), ("mydom", .dict [("a", .int 1)])]).2
      sbOk rfl rfl).1⟩

end OppConfig
